import Mathlib

/-!
Verification development for the spatial association and door-numbering
engine of flamingo.lib (src/flamingo/revit.py and src/flamingo/geometry.py).

The Python source is shallowly embedded: IronPython doubles are modelled as
rationals (`ℚ`), host `XYZ` points as `Pt`, Revit `Outline` boxes as
`Outline`, and the geometry kernel (an external collaborator per the spec)
as an abstract `Kernel S` supplying solid construction and boolean
intersection volumes.  `None` becomes `Option`, uncaught Python exceptions
become `Except Err`.

`GetSolids` and `GetMidPoint` are imported by revit.py from
flamingo.geometry but are absent from the source tree; following the spec
they are modelled as the entity's list of owned solids (see `RElement.solids`
and `RRoom.solids`).
-/

set_option autoImplicit false

namespace Flamingo

/-- A phase: a named point-in-time view of the model.  Phase-scoped
properties are modelled as functions from `Phase`. -/
abbrev Phase := Nat

instance {ε α : Type} [DecidableEq ε] [DecidableEq α] :
    DecidableEq (Except ε α) := fun a b =>
  match a, b with
  | .ok x, .ok y =>
    match decEq x y with
    | isTrue h => isTrue (by rw [h])
    | isFalse h => isFalse (by intro hc; cases hc; exact h rfl)
  | .ok _, .error _ => isFalse (by intro hc; cases hc)
  | .error _, .ok _ => isFalse (by intro hc; cases hc)
  | .error x, .error y =>
    match decEq x y with
    | isTrue h => isTrue (by rw [h])
    | isFalse h => isFalse (by intro hc; cases hc; exact h rfl)

/-- Uncaught exception outcomes of the embedded Python code. -/
inductive Err where
  | indexError
  | valueError
  | typeError
  deriving DecidableEq

/-- A 3D point (`DB.XYZ`); coordinates are rationals standing in for
IronPython doubles. -/
structure Pt where
  x : ℚ
  y : ℚ
  z : ℚ
  deriving DecidableEq, Inhabited

/-- An axis-aligned box (`DB.Outline`) given by its minimum and maximum
corner points. -/
structure Outline where
  minP : Pt
  maxP : Pt
  deriving DecidableEq

/-- `Outline.AddPoint`: grow the outline so that it contains the point. -/
def Outline.addPoint (o : Outline) (p : Pt) : Outline :=
  ⟨⟨min o.minP.x p.x, min o.minP.y p.y, min o.minP.z p.z⟩,
   ⟨max o.maxP.x p.x, max o.maxP.y p.y, max o.maxP.z p.z⟩⟩

/-- Collaborator semantics of `DB.BoundingBoxIntersectsFilter` (tolerance 0):
two closed axis-aligned boxes intersect. -/
def Outline.intersects (a b : Outline) : Bool :=
  (a.minP.x ≤ b.maxP.x && b.minP.x ≤ a.maxP.x) &&
  (a.minP.y ≤ b.maxP.y && b.minP.y ≤ a.maxP.y) &&
  (a.minP.z ≤ b.maxP.z && b.minP.z ≤ a.maxP.z)

/-- Membership of a point in a closed outline. -/
def Outline.containsPt (o : Outline) (p : Pt) : Bool :=
  (o.minP.x ≤ p.x && p.x ≤ o.maxP.x) &&
  (o.minP.y ≤ p.y && p.y ≤ o.maxP.y) &&
  (o.minP.z ≤ p.z && p.z ≤ o.maxP.z)

/-- The geometry-kernel collaborator (spec §6), abstract over a solid type
`S`: `makeSolid` is `DB.GeometryCreationUtilities.CreateExtrusionGeometry`
as used by `MakeSolid(minPoint, maxPoint)`, and `intersectVolume a b` is
`ExecuteBooleanOperation(a, b, Intersect).Volume`; `none` models the kernel
raising `InvalidOperationException`. -/
structure Kernel (S : Type) where
  makeSolid : Pt → Pt → S
  intersectVolume : S → S → Option ℚ

/-- A spatial region ("room", `DB.SpatialElement`).  `solids` is the list
returned by `GetSolids(room)`.  Modelled from the spec: `GetSolids` is
imported from flamingo.geometry but missing from the source tree; per spec
§3 a SpatialRegion owns "zero or more owned Solids". -/
structure RRoom (S : Type) where
  id : Nat
  number : String
  solids : List S
  bbox : Outline
  deriving DecidableEq

/-- The location of an element (`element.Location`).  For a
`DB.LocationCurve` the stored point is the value the collaborator call
`curve.GetEndPoint(-1)` returns; `other` is a location object with no
`Point` attribute. -/
inductive RLocation where
  | curvePt (p : Pt)
  | pointLoc (p : Pt)
  | other
  deriving DecidableEq

/-- A candidate building element as seen by the room resolver.  Phase-scoped
self-reported associations are functions of the phase; `hasToRoomAttr` /
`hasRoomAttr` mirror the source's `hasattr` capability checks.  `solids` is
the list returned by `GetSolids(element)` (modelled from the spec, see
`RRoom.solids`).  `dependentsIntersect s` tells whether
`element.GetDependentElements(ElementIntersectsSolidFilter(s))` is
non-empty (model-store collaborator). -/
structure RElement (S : Type) where
  id : Nat
  hasToRoomAttr : Bool
  toRoomF : Phase → Option (RRoom S)
  fromRoomF : Phase → Option (RRoom S)
  hasRoomAttr : Bool
  roomF : Phase → Option (RRoom S)
  bboxEnabled : Bool
  bboxMin : Pt
  bboxMax : Pt
  location : Option RLocation
  hasLevelIdAttr : Bool
  levelElevation : Option ℚ
  solids : List S
  dependentsIntersect : S → Bool

/-- The link placement transform collaborator: `inv` is
`transform.Inverse.OfPoint`. -/
structure RTransform where
  inv : Pt → Pt

variable {S : Type}

/-- The intersection-volume epsilon.  The source tests
`abs(interSolid.Volume > 0.000001)`: `abs` is applied to a boolean, so the
test is truthy exactly when the volume exceeds 1e-6 (modelled as the
rational 1/1000000). -/
def volumeEps : ℚ := 1/1000000

/-- `_TestRoomIntersect(room, solid)` (revit.py:800).  `roomSolids[0]` on a
room with no solids raises `IndexError` (the `except` clause only catches
`InvalidOperationException`, which is modelled by `intersectVolume = none`
and yields the `(None, None)` result). -/
def TestRoomIntersect (K : Kernel S) (room : RRoom S) (solid : S) :
    Except Err (Option (RRoom S × ℚ)) :=
  match room.solids with
  | [] => .error .indexError
  | s0 :: _ =>
    match K.intersectVolume s0 solid with
    | none => .ok none
    | some v => if volumeEps < v then .ok (some (room, v)) else .ok none

/-- `GetSolids(room)[0]` as evaluated at revit.py:1002 and 1011. -/
def headRoomSolid (room : RRoom S) : Except Err S :=
  match room.solids with
  | [] => .error .indexError
  | s :: _ => .ok s

/-- Inner loop of tier 3 (revit.py:1003): test one room against every
element solid, collecting one copy of the room per matching element solid. -/
def tier3Room (K : Kernel S) (room : RRoom S) :
    List S → Except Err (List (RRoom S))
  | [] => .ok []
  | s :: rest => do
    let t ← TestRoomIntersect K room s
    let tail ← tier3Room K room rest
    pure ((match t with | some (r, _) => [r] | none => []) ++ tail)

/-- Tier 3, solid-intersection matching (revit.py:1000-1006): for each
candidate room, `GetSolids(room)[0]` is evaluated (raising on a room with no
solids even when there are no element solids), then each element solid is
tested against it. -/
def tier3Matches (K : Kernel S) (elementSolids : List S) :
    List (RRoom S) → Except Err (List (RRoom S))
  | [] => .ok []
  | room :: rest => do
    let _ ← headRoomSolid room
    let ms ← tier3Room K room elementSolids
    let tail ← tier3Matches K elementSolids rest
    pure (ms ++ tail)

/-- Tier 4, dependent-element fallback (revit.py:1008-1017). -/
def tier4Matches (element : RElement S) :
    List (RRoom S) → Except Err (List (RRoom S))
  | [] => .ok []
  | room :: rest => do
    let rs ← headRoomSolid room
    let tail ← tier4Matches element rest
    pure ((if element.dependentsIntersect rs then [room] else []) ++ tail)

/-- Python dict assignment `roomMatchVolumes[volume] = room`: overwrite in
place when the key is present, append otherwise. -/
def dictInsert (d : List (ℚ × RRoom S)) (k : ℚ) (v : RRoom S) :
    List (ℚ × RRoom S) :=
  if d.any (fun p => p.1 = k) then
    d.map (fun p => if p.1 = k then (k, v) else p)
  else d ++ [(k, v)]

/-- The tier-5 accumulation loop over candidate rooms (revit.py:1025-1028),
building the `roomMatchVolumes` dict. -/
def tier5Dict (K : Kernel S) (synthSolid : S) :
    List (RRoom S) → List (ℚ × RRoom S) → Except Err (List (ℚ × RRoom S))
  | [], d => .ok d
  | room :: rest, d => do
    let t ← TestRoomIntersect K room synthSolid
    tier5Dict K synthSolid rest
      (match t with | some (r, v) => dictInsert d v r | none => d)

/-- `max(roomMatchVolumes.keys())` over a non-empty dict. -/
def keysMax (d : List (ℚ × RRoom S)) : Option ℚ :=
  match d.map (fun p => p.1) with
  | [] => none
  | k :: ks => some (ks.foldl max k)

/-- `roomMatchVolumes[max(roomMatchVolumes.keys())]` guarded by
`if roomMatchVolumes:` (revit.py:1030-1031). -/
def tier5Pick (d : List (ℚ × RRoom S)) : List (RRoom S) :=
  match keysMax d with
  | none => []
  | some m =>
    match d.find? (fun p => p.1 = m) with
    | some p => [p.2]
    | none => []

/-- Tier 5, coarse bounding-volume fallback (revit.py:1019-1031): a single
synthetic solid is built via `MakeSolid` from the expanded outline and
intersected against each candidate room; only the room stored under the
largest volume key is kept. -/
def tier5Match (K : Kernel S) (elementOutline : Outline)
    (rooms : List (RRoom S)) : Except Err (List (RRoom S)) := do
  let synthSolid := K.makeSolid elementOutline.minP elementOutline.maxP
  let d ← tier5Dict K synthSolid rooms []
  pure (tier5Pick d)

/-- `_GetMatchingRooms(element, elementSolids, elementOutline, rooms)`
(revit.py:994-1033), the tier 3 → 4 → 5 cascade.  The leading underscore of
the source name is dropped. -/
def GetMatchingRooms (K : Kernel S) (element : RElement S)
    (elementSolids : List S) (elementOutline : Outline)
    (rooms : List (RRoom S)) : Except Err (List (RRoom S)) := do
  let m3 ← tier3Matches K elementSolids rooms
  if m3.isEmpty then
    let m4 ← tier4Matches element rooms
    if m4.isEmpty then
      tier5Match K elementOutline rooms
    else pure m4
  else pure m3

/-- `_ProjectToLevel(elementOutline, element)` (revit.py:817-837).  When the
element has a `LevelId` attribute the source assigns `z` the level's
elevation but the `AddPoint` call sits only in the `else` (no-`LevelId`)
branch, so the outline is returned unchanged (the `z` store is dead). -/
def ProjectToLevel (elementOutline : Outline) (element : RElement S) :
    Outline :=
  let elementPoint : Option Pt :=
    match element.location with
    | some (.curvePt p) => some p
    | some (.pointLoc p) => some p
    | some .other => none
    | none => none
  match elementPoint with
  | none => elementOutline
  | some p =>
    if element.hasLevelIdAttr then
      elementOutline
    else
      elementOutline.addPoint ⟨p.x, p.y, p.z⟩

/-- The expanded outline: the element bounding box grown symmetrically by
`offset` on all axes (revit.py:955-958). -/
def expandOutline (bmin bmax : Pt) (offset : ℚ) : Outline :=
  ⟨⟨bmin.x - offset, bmin.y - offset, bmin.z - offset⟩,
   ⟨bmax.x + offset, bmax.y + offset, bmax.z + offset⟩⟩

/-- Tier 1, first clause (revit.py:933-940): when the element has the
`ToRoom`/`FromRoom` pair, `toRoom = [ToRoom[phase]]` with `FromRoom[phase]`
appended when truthy; `all(toRoom)` holds exactly when `ToRoom[phase]` is
populated. -/
def selfReportToRooms (element : RElement S) (phase : Phase) :
    Option (List (RRoom S)) :=
  if element.hasToRoomAttr then
    match element.toRoomF phase with
    | some rt => some ([rt] ++ (element.fromRoomF phase).toList)
    | none => none
  else none

/-- Tier 1, second clause (revit.py:941-945): the `Room` property. -/
def selfReportRoom (element : RElement S) (phase : Phase) :
    Option (List (RRoom S)) :=
  if element.hasRoomAttr then
    (element.roomF phase).map (fun r => [r])
  else none

/-- Candidate narrowing (revit.py:967-987): when the `rooms` argument is
truthy (a non-empty list) the collector is restricted to the given ids,
then to rooms whose bounding box intersects the outline; otherwise all of
the document's rooms are bounding-box filtered.  `docRooms` stands for the
document's room elements (model-store collaborator). -/
def candidateRooms (docRooms rooms : List (RRoom S))
    (elementOutline : Outline) : List (RRoom S) :=
  if !rooms.isEmpty then
    (docRooms.filter (fun dr => rooms.any (fun r => r.id = dr.id))).filter
      (fun dr => dr.bbox.intersects elementOutline)
  else
    docRooms.filter (fun dr => dr.bbox.intersects elementOutline)

/-- `GetElementRooms(element, phase, rooms, offset, projectToLevel, doc)`
(revit.py:896-991).  `rooms` is `Option (List room)`: `none` is the
declared default `rooms=None` (the repository's only caller, cobie.py:305,
leaves it defaulted).  The entry `LOGGER.debug` call formats its message
eagerly and evaluates `len(rooms)` unconditionally (revit.py:923-928), so
`rooms=None` raises `TypeError` before any tier runs.  The result is
`Option (List room)`: `none` is the bare `return` (Python `None`) taken
when the bounding box is not enabled. -/
def GetElementRooms (K : Kernel S) (element : RElement S) (phase : Phase)
    (rooms : Option (List (RRoom S))) (offset : ℚ) (projectToLevel : Bool)
    (docRooms : List (RRoom S)) : Except Err (Option (List (RRoom S))) :=
  match rooms with
  | none => .error .typeError
  | some roomsList =>
  match selfReportToRooms element phase with
  | some l => .ok (some l)
  | none =>
  match selfReportRoom element phase with
  | some l => .ok (some l)
  | none =>
  if !element.bboxEnabled then .ok none
  else
    let elementOutline := expandOutline element.bboxMin element.bboxMax offset
    let elementOutline :=
      if projectToLevel && element.location.isSome then
        ProjectToLevel elementOutline element
      else elementOutline
    let cands := candidateRooms docRooms roomsList elementOutline
    (GetMatchingRooms K element element.solids elementOutline cands).map some

/-- `GetElementRoomsFromLink(element, linkDoc, transform, roomsFromLink,
offset, projectToLevel)` (revit.py:840-893).  There is no tier-1 self-report
check; the outline is transformed into the link's coordinate space for the
bounding-box filter only, while `_GetMatchingRooms` receives the untransformed
outline, exactly as in the source.  `linkRooms` stands for the link
document's room elements.  Unlike `GetElementRooms`, the entry log line
(revit.py:848-850) touches only `element.Id`, so the default
`roomsFromLink=None` does not raise and behaves exactly like the empty
list (`if roomsFromLink:` at revit.py:872); both are modelled as `[]`. -/
def GetElementRoomsFromLink (K : Kernel S) (element : RElement S)
    (transform : RTransform) (roomsFromLink : List (RRoom S)) (offset : ℚ)
    (projectToLevel : Bool) (linkRooms : List (RRoom S)) :
    Except Err (Option (List (RRoom S))) :=
  if !element.bboxEnabled then .ok none
  else
    let elementOutline := expandOutline element.bboxMin element.bboxMax offset
    let elementOutline :=
      if projectToLevel && element.location.isSome then
        ProjectToLevel elementOutline element
      else elementOutline
    let transformedOutline : Outline :=
      ⟨transform.inv elementOutline.minP, transform.inv elementOutline.maxP⟩
    let cands :=
      if !roomsFromLink.isEmpty then
        (linkRooms.filter
          (fun dr => roomsFromLink.any (fun r => r.id = dr.id))).filter
          (fun dr => dr.bbox.intersects transformedOutline)
      else
        linkRooms.filter (fun dr => dr.bbox.intersects transformedOutline)
    (GetMatchingRooms K element element.solids elementOutline cands).map some

/-! ## Door numbering (`DoorRenameByRoomNumber`, revit.py:501-669) -/

/-- A room as seen through a door's `ToRoom`/`FromRoom` property: identity,
`Number`, `Area` and `Location.Point` (captured at graph construction). -/
structure DRoom where
  id : Nat
  number : String
  area : ℚ
  locPoint : Pt
  deriving DecidableEq

/-- A door element.  `toRoomF`/`fromRoomF` are the phase-indexed
`ToRoom`/`FromRoom` properties.  The bounding box feeds only the discarded
bearing-angle block (revit.py:636-643). -/
structure Door where
  id : Nat
  toRoomF : Phase → Option DRoom
  fromRoomF : Phase → Option DRoom
  bbMin : Pt
  bbMax : Pt

/-- One value of the `doorsByRoom` dictionary (revit.py:570-575, 591). -/
structure RoomRec where
  doors : List Nat
  roomNumber : String
  roomArea : ℚ
  roomLocation : Pt
  doorCount : Nat
  deriving DecidableEq, Inhabited

/-- The `doorsByRoom` dict, keyed by room id; Python dict modelled as an
insertion-ordered association list. -/
abbrev DoorsByRoom := List (Nat × RoomRec)

/-- Membership test `roomId in doorsByRoom`. -/
def dbrContains (m : DoorsByRoom) (rid : Nat) : Bool :=
  m.any (fun p => p.1 = rid)

/-- `doorsByRoom[rid]["doors"] = doorsByRoom[rid]["doors"] + [d]`. -/
def dbrAppendDoor (m : DoorsByRoom) (rid d : Nat) : DoorsByRoom :=
  m.map (fun p =>
    if p.1 = rid then (p.1, { p.2 with doors := p.2.doors ++ [d] }) else p)

/-- Dict assignment `doorsByRoom[rid] = rec`: overwrite in place when the
key exists, append otherwise. -/
def dbrSet (m : DoorsByRoom) (rid : Nat) (rec : RoomRec) : DoorsByRoom :=
  if dbrContains m rid then
    m.map (fun p => if p.1 = rid then (rid, rec) else p)
  else m ++ [(rid, rec)]

/-- Dict read `doorsByRoom[rid]`.  The source only reads keys that are
present, so the default is never reached on the traced paths. -/
def dbrGet (m : DoorsByRoom) (rid : Nat) : RoomRec :=
  match m.find? (fun p => p.1 = rid) with
  | some p => p.2
  | none => default

/-- Graph construction for one door (revit.py:545-575): append the door to
rooms already in the dict, collect newly seen rooms in `roomsToAdd`, then
create their entries with `doors = [door.Id]` (a room reached both as
`ToRoom` and `FromRoom` of the same new door is set twice, last set wins).
The `try` around `door.ToRoom[phase]` is not modelled: every embedded door
carries both properties. -/
def addDoorToGraph (phase : Phase) (m : DoorsByRoom) (door : Door) :
    DoorsByRoom :=
  let step1 : DoorsByRoom × List DRoom :=
    match door.toRoomF phase with
    | some r =>
      if dbrContains m r.id then (dbrAppendDoor m r.id door.id, [])
      else (m, [r])
    | none => (m, [])
  let step2 : DoorsByRoom × List DRoom :=
    match door.fromRoomF phase with
    | some r =>
      if dbrContains step1.1 r.id then
        (dbrAppendDoor step1.1 r.id door.id, step1.2)
      else (step1.1, step1.2 ++ [r])
    | none => step1
  step2.2.foldl
    (fun m r => dbrSet m r.id ⟨[door.id], r.number, r.area, r.locPoint, 0⟩)
    step2.1

/-- The `doorConnectors` map: door id → sum over every room door list that
contains it of that list's length (revit.py:577-587), built as an
insertion-ordered association list over `allDoors`. -/
def dcAdd (dc : List (Nat × Nat)) (d k : Nat) : List (Nat × Nat) :=
  if dc.any (fun p => p.1 = d) then
    dc.map (fun p => if p.1 = d then (p.1, p.2 + k) else p)
  else dc ++ [(d, k)]

/-- Build `doorConnectors` from `allDoors` and the room door lists. -/
def buildDoorConnectors (allDoors : List Door) (lists : List (List Nat)) :
    List (Nat × Nat) :=
  allDoors.foldl
    (fun dc door =>
      lists.foldl
        (fun dc l => if door.id ∈ l then dcAdd dc door.id l.length else dc)
        dc)
    []

/-- `doorConnectors[d]`; keys are always present for doors drawn from a
room's door list. -/
def dcGet (dc : List (Nat × Nat)) (d : Nat) : Nat :=
  match dc.find? (fun p => p.1 = d) with
  | some p => p.2
  | none => 0

/-- `maxLength = max([len(values["doors"]) for values in
doorsByRoom.values()])` (revit.py:589): Python `max` of an empty sequence
raises `ValueError`. -/
def maxDoorsLength (m : DoorsByRoom) : Except Err Nat :=
  match m.map (fun p => p.2.doors.length) with
  | [] => .error .valueError
  | x :: xs => .ok (xs.foldl max x)

/-- Stable ascending insertion by a rational key (Python `sorted` is
stable: a later element is placed after earlier elements of equal key). -/
def insertAscBy {α : Type} (key : α → ℚ) (x : α) : List α → List α
  | [] => [x]
  | y :: ys => if key y ≤ key x then y :: insertAscBy key x ys else x :: y :: ys

/-- `sorted(l, key=key)`. -/
def sortAscBy {α : Type} (key : α → ℚ) (l : List α) : List α :=
  l.foldl (fun acc x => insertAscBy key x acc) []

/-- Stable descending insertion by a natural key (Python
`sorted(..., reverse=True)`: equal keys keep original order). -/
def insertDescBy {α : Type} (key : α → Nat) (x : α) : List α → List α
  | [] => [x]
  | y :: ys => if key x ≤ key y then y :: insertDescBy key x ys else x :: y :: ys

/-- `sorted(l, key=key, reverse=True)`. -/
def sortDescBy {α : Type} (key : α → Nat) (l : List α) : List α :=
  l.foldl (fun acc x => insertDescBy key x acc) []

/-- `ascii_uppercase`. -/
def asciiUppercase : String := "ABCDEFGHIJKLMNOPQRSTUVWXYZ"

/-- `ascii_uppercase[j]` as a one-character string; `IndexError` past the
last letter. -/
def suffixAt (j : Nat) : Except Err String :=
  match asciiUppercase.toList.drop j with
  | [] => .error .indexError
  | c :: _ => .ok (String.mk [c])

/-- `numberedDoors.add(doorId)` (a set, modelled as an insertion-ordered
duplicate-free list). -/
def setAdd (s : List Nat) (d : Nat) : List Nat :=
  if d ∈ s then s else s ++ [d]

/-- The inner door loop of one room (revit.py:632-654): `j` enumerates the
sorted un-numbered doors; with more than one door to number the mark is
`"{}{}".format(roomNumber, ascii_uppercase[j])`, otherwise the bare room
number.  The `prefix`, `seperator` and `suffixList` arguments of
`DoorRenameByRoomNumber` are not consulted.  The bearing-angle block
(revit.py:636-643) computes an `atan2` bearing from the door bounding box
and the room location and discards it; it is not modelled (spec §4.3 open
question).  Marks are recorded as `(doorId, mark)` writes for doors in
`selectedDoorIds`; nothing later reads them back. -/
def assignLoop (selectedDoorIds : List Nat) (roomNumber : String)
    (multi : Bool) :
    Nat → List Nat → List Nat → List (Nat × String) →
    Except Err (List Nat × List (Nat × String))
  | _, [], numbered, writes => .ok (numbered, writes)
  | j, d :: ds, numbered, writes => do
    let numbered := setAdd numbered d
    let mark ←
      if multi then do
        let sfx ← suffixAt j
        pure (roomNumber ++ sfx)
      else pure roomNumber
    let writes :=
      if d ∈ selectedDoorIds then writes ++ [(d, mark)] else writes
    assignLoop selectedDoorIds roomNumber multi (j + 1) ds numbered writes

/-- Loop context: the fixed data of the numbering loop. -/
structure LoopCtx where
  selectedDoorIds : List Nat
  doorConnectors : List (Nat × Nat)
  maxLength : Nat
  nMax : Nat

/-- Process the rooms of one level pass (revit.py:619-654): for each room
of `roomsThisRound` whose (unchanged within the pass) `doorCount` equals
`i`, number its un-numbered doors in descending connector order. -/
def roomsPass (ctx : LoopCtx) (dbr : DoorsByRoom) (i : Nat) :
    List Nat → List Nat → List (Nat × String) → Bool →
    Except Err (List Nat × List (Nat × String) × Bool)
  | [], numbered, writes, noRooms => .ok (numbered, writes, noRooms)
  | rid :: rest, numbered, writes, noRooms => do
    let values := dbrGet dbr rid
    if values.doorCount = i then do
      let doorsToNumber := values.doors.filter (fun d => d ∉ numbered)
      let sortedDoorsToNumber :=
        sortDescBy (fun d => dcGet ctx.doorConnectors d) doorsToNumber
      let (numbered, ws) ←
        assignLoop ctx.selectedDoorIds values.roomNumber
          (decide (1 < doorsToNumber.length)) 0 sortedDoorsToNumber numbered []
      roomsPass ctx dbr i rest numbered (writes ++ ws) false
    else
      roomsPass ctx dbr i rest numbered writes noRooms

/-- One full pass of the `while` loop body (revit.py:607-665): select the
rooms whose current `doorCount` is `i`, sort them by ascending area, number
their doors, then recompute every room's remaining door list and count. -/
def passBody (ctx : LoopCtx) (dbr : DoorsByRoom) (numbered : List Nat)
    (i : Nat) :
    Except Err (DoorsByRoom × List Nat × List (Nat × String) × Bool) := do
  let roomsThisRound :=
    sortAscBy (fun rid => (dbrGet dbr rid).roomArea)
      ((dbr.filter (fun p => p.2.doorCount = i)).map (fun p => p.1))
  let (numbered, ws, noRooms) ←
    roomsPass ctx dbr i roomsThisRound numbered [] true
  let dbr :=
    dbr.map (fun p =>
      let un := p.2.doors.filter (fun d => d ∉ numbered)
      (p.1, { p.2 with doors := un, doorCount := un.length }))
  pure (dbr, numbered, ws, noRooms)

/-- The `while i <= maxLength` loop (revit.py:602-668).  The source breaks
when `n > nMax`; since `n` is incremented on every executed pass, the break
test is expressed through the structurally decreasing co-counter
`remaining = nMax + 1 - n` (`n > nMax` exactly when `remaining = 0`), with
`n` itself carried along unchanged.  The result also reports `n` (the
consumed iteration budget), the number of passes with an eligible room
(`noRooms` false) and the total number of executed passes. -/
def doorLoop (ctx : LoopCtx) :
    Nat → DoorsByRoom → List Nat → List (Nat × String) →
    Nat → Nat → Nat → Nat →
    Except Err (DoorsByRoom × List (Nat × String) × Nat × Nat × Nat)
  | remaining, dbr, numbered, writes, i, n, elig, passes =>
    if i ≤ ctx.maxLength then
      match remaining with
      | 0 => .ok (dbr, writes, n, elig, passes)
      | rem + 1 => do
        let (dbr, numbered, ws, noRooms) ← passBody ctx dbr numbered i
        doorLoop ctx rem dbr numbered (writes ++ ws)
          (if noRooms then i + 1 else i) (n + 1)
          (if noRooms then elig else elig + 1) (passes + 1)
    else .ok (dbr, writes, n, elig, passes)

/-- Run the numbering loop from its initial state (`i = 1`, `n = 0`) and
project away the final `doorsByRoom` state. -/
def doorRun (ctx : LoopCtx) (m : DoorsByRoom) :
    Except Err (List (Nat × String) × Nat × Nat × Nat) :=
  match doorLoop ctx (ctx.nMax + 1) m [] [] 1 0 0 0 with
  | .error e => .error e
  | .ok (_, writes, n, elig, passes) => .ok (writes, n, elig, passes)

/-- The mark writes and loop counters computed by
`DoorRenameByRoomNumber(doors, phase, prefix, seperator, suffixList)`.
`pfx` stands for the source's `prefix` argument.  All three of `pfx`,
`seperator` and `suffixList` are accepted exactly as in the source — and,
exactly as in the source, never used in mark construction.  The result is
`(writes, n, elig, passes)`. -/
def computeDoorWrites (allDoors doors : List Door) (phase : Phase)
    (pfx seperator : String) (suffixList : List String) :
    Except Err (List (Nat × String) × Nat × Nat × Nat) :=
  let _ := pfx
  let _ := seperator
  let _ := suffixList
  let selectedDoorIds := doors.map (fun d => d.id)
  let m0 := allDoors.foldl (addDoorToGraph phase) []
  let doorsByRoomDoors := m0.map (fun p => p.2.doors)
  let dc := buildDoorConnectors allDoors doorsByRoomDoors
  match maxDoorsLength m0 with
  | .error e => .error e
  | .ok maxLen =>
    let m := m0.map (fun p =>
      (p.1, { p.2 with doorCount := p.2.doors.length }))
    doorRun ⟨selectedDoorIds, dc, maxLen, doors.length * 2⟩ m

/-- The last write recorded for a door id (later writes win), mirroring
repeated `markParameter.Set` calls. -/
def writesLookup : List (Nat × String) → Nat → Option String
  | [], _ => none
  | kv :: w, x =>
    match writesLookup w x with
    | some v => some v
    | none => if kv.1 = x then some kv.2 else none

/-- Mark-parameter state of the document: door id → current mark. -/
abbrev Marks := Nat → Option String

/-- One `markParameter.Set(mark)` call. -/
def markSet (m : Marks) (kv : Nat × String) : Marks :=
  fun x => if kv.1 = x then some kv.2 else m x

/-- Apply the recorded writes in order. -/
def applyWrites (m : Marks) (w : List (Nat × String)) : Marks :=
  w.foldl markSet m

/-- `DoorRenameByRoomNumber` as a transformation of the document's mark
state: the algorithm reads only room/door data (never marks) and its sole
side effect is the sequence of mark writes. -/
def DoorRenameByRoomNumber (allDoors doors : List Door) (phase : Phase)
    (pfx seperator : String) (suffixList : List String) (marks : Marks) :
    Except Err (Marks × Nat × Nat × Nat) :=
  (computeDoorWrites allDoors doors phase pfx seperator suffixList).map
    (fun r => (applyWrites marks r.1, r.2))

/-! ## Statement-support definitions -/

/-- Whether a tier-3 pairing of a room with one element solid is a match:
the room's first decomposed solid intersects the element solid with a
volume above `volumeEps` (defined for rooms with at least one solid; a
solid-less room raises before this test is reached). -/
def roomSolidMatch (K : Kernel S) (room : RRoom S) (s : S) : Bool :=
  match room.solids with
  | [] => false
  | s0 :: _ =>
    match K.intersectVolume s0 s with
    | none => false
    | some v => decide (volumeEps < v)

/-! ## Concrete fixtures used by witnesses and counterexamples -/

/-- A unit box outline. -/
def exO01 : Outline := ⟨⟨0, 0, 0⟩, ⟨1, 1, 1⟩⟩

/-- A room with one solid. -/
def exRa : RRoom Nat := ⟨21, "201", [5], exO01⟩

/-- A second room with one solid. -/
def exRb : RRoom Nat := ⟨22, "202", [6], exO01⟩

/-- A room whose decomposition has two solids. -/
def exR2s : RRoom Nat := ⟨24, "204", [0, 1], exO01⟩

/-- A kernel whose intersections always raise. -/
def exKtriv : Kernel Nat := ⟨fun _ _ => 0, fun _ _ => none⟩

/-- An element whose only populated self-report is `FromRoom`. -/
def exEfrom : RElement Nat :=
  ⟨1, true, fun _ => none, fun _ => some exRa, false, fun _ => none,
   true, ⟨0, 0, 0⟩, ⟨1, 1, 1⟩, none, true, none, [], fun _ => false⟩

/-- An element with both `ToRoom` and `FromRoom` populated. -/
def exEto : RElement Nat :=
  ⟨2, true, fun _ => some exRb, fun _ => some exRa, false, fun _ => none,
   true, ⟨0, 0, 0⟩, ⟨1, 1, 1⟩, none, true, none, [], fun _ => false⟩

/-- An element whose bounding box is not enabled. -/
def exEbb : RElement Nat :=
  ⟨3, false, fun _ => none, fun _ => none, false, fun _ => none,
   false, ⟨0, 0, 0⟩, ⟨1, 1, 1⟩, none, true, none, [], fun _ => false⟩

/-- An element with a point location, a `LevelId` attribute and a level at
elevation 0, but whose bounding box sits at z ∈ [9, 11]. -/
def exElvl : RElement Nat :=
  ⟨4, false, fun _ => none, fun _ => none, false, fun _ => none,
   true, ⟨4, 4, 9⟩, ⟨6, 6, 11⟩, some (.pointLoc ⟨5, 5, 10⟩), true, some 0,
   [], fun _ => false⟩

/-- The expanded outline of `exElvl` at offset 1 (z ∈ [8, 12]). -/
def exO48 : Outline := expandOutline ⟨4, 4, 9⟩ ⟨6, 6, 11⟩ 1

/-- A geometry-only element (no self-report, no solids, no dependents). -/
def exEgeo : RElement Nat :=
  ⟨5, false, fun _ => none, fun _ => none, false, fun _ => none,
   true, ⟨0, 0, 0⟩, ⟨1, 1, 1⟩, none, true, none, [], fun _ => false⟩

/-- A kernel reporting a positive intersection volume below the epsilon. -/
def exKtiny : Kernel Nat := ⟨fun _ _ => 9, fun _ _ => some (1/2000000)⟩

/-- A kernel giving room solid 5 volume 1 and every other pair volume 2. -/
def exK2 : Kernel Nat :=
  ⟨fun _ _ => 9, fun rs _ => if rs = 5 then some 1 else some 2⟩

/-- A kernel for which the second solid of `exR2s` matches (volume 1) but
the first does not (volume 0). -/
def exK3 : Kernel Nat :=
  ⟨fun _ _ => 9, fun rs es => if rs = 0 && es = 5 then some 0 else some 1⟩

/-- A two-door room for the numbering fixtures. -/
def exDR101 : DRoom := ⟨11, "101", 50, ⟨0, 0, 0⟩⟩

/-- A door into `exDR101`. -/
def exD1 : Door := ⟨1, fun _ => some exDR101, fun _ => none, ⟨0, 0, 0⟩, ⟨1, 1, 1⟩⟩

/-- A second door into `exDR101`. -/
def exD2 : Door := ⟨2, fun _ => some exDR101, fun _ => none, ⟨0, 0, 0⟩, ⟨1, 1, 1⟩⟩

/-- A door reporting no room association at any phase. -/
def exDnone : Door := ⟨7, fun _ => none, fun _ => none, ⟨0, 0, 0⟩, ⟨1, 1, 1⟩⟩

/-- The no-marks initial state. -/
def exMarks0 : Marks := fun _ => none

/-- The mark state after the first run on the one-door fixture. -/
def exM1 : Marks := applyWrites exMarks0 [(1, "101")]

/-! ## C1: tier-1 self-report -/

/-- C1 (counterexample): two refutations of the immediate-self-report
claim.  First, an element whose only populated self-report is the
`FromRoom` property is not short-circuited: with no candidate rooms,
`GetElementRooms` returns the empty geometry result instead of the
self-reported room.  Second, even an element with a fully populated
`ToRoom` is not returned immediately under the declared default
`rooms=None`: the eagerly formatted entry log evaluates `len(rooms)` and
raises `TypeError` before the self-report check is reached. -/
theorem C1_cex_fromRoomOnly :
    GetElementRooms exKtriv exEfrom 0 (some []) 1 true [] =
      .ok (some []) ∧
    exEfrom.fromRoomF 0 = some exRa ∧
    ([] : List (RRoom Nat)) ≠ [exRa] ∧
    exEto.toRoomF 0 = some exRb ∧
    GetElementRooms exKtriv exEto 0 none 1 true [] = .error .typeError := by
  refine ⟨by with_unfolding_all decide, rfl, by decide, rfl, rfl⟩

/-- C1 (amended): provided the `rooms` argument is an actual list (the
declared default `None` raises `TypeError` in the eagerly formatted entry
log before any tier runs), when the element has the `ToRoom`/`FromRoom`
pair and `ToRoom` is populated for the phase, `GetElementRooms` returns
exactly `[ToRoom]` (plus `FromRoom` when also populated); when that clause
does not fire and the `Room` property is populated, it returns `[Room]`.
In both cases the result is the same for every kernel and every supplied
candidate/document room set, so no bounding-box query or geometry-kernel
call influences it. -/
theorem C1_selfReport {S : Type} (K : Kernel S) (element : RElement S)
    (phase : Phase) (roomsArg docRooms : List (RRoom S)) (offset : ℚ)
    (ptl : Bool) :
    (∀ rt, element.hasToRoomAttr = true → element.toRoomF phase = some rt →
      GetElementRooms K element phase (some roomsArg) offset ptl docRooms =
        .ok (some ([rt] ++ (element.fromRoomF phase).toList))) ∧
    (∀ r, (element.hasToRoomAttr = true → element.toRoomF phase = none) →
      element.hasRoomAttr = true → element.roomF phase = some r →
      GetElementRooms K element phase (some roomsArg) offset ptl docRooms =
        .ok (some [r])) := by
  constructor
  · intro rt hattr hto
    simp [GetElementRooms, selfReportToRooms, hattr, hto]
  · intro r h1 hattr hroom
    cases hTo : element.hasToRoomAttr with
    | false =>
      simp [GetElementRooms, selfReportToRooms, selfReportRoom, hTo, hattr,
        hroom]
    | true =>
      simp [GetElementRooms, selfReportToRooms, selfReportRoom, hTo, h1 hTo,
        hattr, hroom]

/-- Witness for C1: a concrete element with both `ToRoom` and `FromRoom`
populated returns the pair, for a kernel that would fail on any call. -/
theorem C1_selfReport_witness :
    GetElementRooms exKtriv exEto 0 (some []) 1 true [] =
      .ok (some ([exRb] ++ (exEto.fromRoomF 0).toList)) :=
  (C1_selfReport exKtriv exEto 0 [] [] 1 true).1 exRb rfl rfl

/-! ## C4: project-to-level dead store -/

/-- C4: for an element with a point location, a `LevelId` attribute and a
level at elevation 0, `_ProjectToLevel` returns the outline unchanged: the
source assigns `z` the level elevation but the `AddPoint` call sits only in
the no-`LevelId` branch, so the synthetic point `(x, y, levelElevation)` is
never absorbed — it is not even inside the returned outline. -/
theorem C4_projectToLevel_bug :
    ProjectToLevel exO48 exElvl = exO48 ∧
    exElvl.location = some (.pointLoc ⟨5, 5, 10⟩) ∧
    exElvl.hasLevelIdAttr = true ∧
    exElvl.levelElevation = some 0 ∧
    exO48.containsPt ⟨5, 5, 0⟩ = false := by
  refine ⟨by with_unfolding_all decide, rfl, rfl, rfl,
    by with_unfolding_all decide⟩

/-! ## C5: iteration budget (counterexample half) -/

/-- C5 (counterexample): with an empty `doorsToLabel` batch and a two-door
room in the model, the level loop executes one pass in which no room is
eligible, yet that pass consumes an iteration-budget unit: the final budget
`n` is 1 while the count of eligible passes is 0, and 1 exceeds the claimed
bound `2 × (size of doorsToLabel) = 0`. -/
theorem C5_cex_budget :
    computeDoorWrites [exD1, exD2] [] 0 "" "" [] = .ok ([], 1, 0, 1) ∧
    2 * ([] : List Door).length < 1 := by
  refine ⟨by with_unfolding_all decide, by decide⟩

/-! ## C6: prefix/separator/suffix arguments are ignored -/

/-- C6: with `prefix="P"`, `seperator="-"`, `suffixList=["X","Y"]` and a
room numbered 101 holding two doors to label, the source writes marks
`101A` and `101B` — built from `ascii_uppercase` with no prefix and no
separator — not the documented `P101-X`/`P101-Y`. -/
theorem C6_ignoredArgs_bug :
    computeDoorWrites [exD1, exD2] [exD1, exD2] 0 "P" "-" ["X", "Y"] =
      .ok ([(1, "101A"), (2, "101B")], 3, 1, 3) ∧
    "101A" ≠ "P" ++ "101" ++ "-" ++ "X" := by
  refine ⟨by with_unfolding_all decide, by decide⟩

/-! ## C8: disabled bounding box -/

/-- C8 (counterexample): two refutations.  First, an element whose
bounding box is not enabled makes `GetElementRooms` (called with an actual
room list) return the bare-`return` value `None` (modelled `none`), which
is not the empty list of rooms the claim describes.  Second, under the
declared default `rooms=None` the same element does not even reach the
bounding-box check: the eagerly formatted entry log evaluates `len(rooms)`
and raises `TypeError`, so "without raising an error" also fails. -/
theorem C8_cex_noneNotEmpty :
    GetElementRooms exKtriv exEbb 0 (some []) 1 true [exRa] = .ok none ∧
    (Except.ok none : Except Err (Option (List (RRoom Nat)))) ≠
      .ok (some []) ∧
    GetElementRooms exKtriv exEbb 0 none 1 true [exRa] =
      .error .typeError := by
  refine ⟨by with_unfolding_all decide, by decide, rfl⟩

/-- C8 (amended): for every element whose tier-1 self-report does not fire
and whose bounding box is not enabled, `GetElementRooms` — provided its
`rooms` argument is an actual list, the declared default `None` raising
`TypeError` in the entry log before the bounding-box check — and
`GetElementRoomsFromLink` (unconditionally) return `None` (no rooms value
at all) without raising, for every kernel, phase, transform and candidate
set. -/
theorem C8_disabledBBox {S : Type} (K : Kernel S) (element : RElement S)
    (phase : Phase) (roomsArg docRooms : List (RRoom S)) (offset : ℚ)
    (ptl : Bool) (transform : RTransform)
    (roomsFromLink linkRooms : List (RRoom S))
    (h1 : element.hasToRoomAttr = true → element.toRoomF phase = none)
    (h2 : element.hasRoomAttr = true → element.roomF phase = none)
    (hbb : element.bboxEnabled = false) :
    GetElementRooms K element phase (some roomsArg) offset ptl docRooms =
      .ok none ∧
    GetElementRoomsFromLink K element transform roomsFromLink offset ptl
      linkRooms = .ok none := by
  constructor
  · cases hTo : element.hasToRoomAttr with
    | false =>
      cases hR : element.hasRoomAttr with
      | false =>
        simp [GetElementRooms, selfReportToRooms, selfReportRoom, hTo, hR,
          hbb]
      | true =>
        simp [GetElementRooms, selfReportToRooms, selfReportRoom, hTo, hR,
          h2 hR, hbb]
    | true =>
      cases hR : element.hasRoomAttr with
      | false =>
        simp [GetElementRooms, selfReportToRooms, selfReportRoom, hTo, hR,
          h1 hTo, hbb]
      | true =>
        simp [GetElementRooms, selfReportToRooms, selfReportRoom, hTo, hR,
          h1 hTo, h2 hR, hbb]
  · simp [GetElementRoomsFromLink, hbb]

/-- Witness for C8: the disabled-bounding-box element, evaluated
concretely. -/
theorem C8_disabledBBox_witness :
    GetElementRooms exKtriv exEbb 0 (some []) 1 true [exRa] = .ok none ∧
    GetElementRoomsFromLink exKtriv exEbb ⟨id⟩ [] 1 true [exRa] =
      .ok none :=
  C8_disabledBBox exKtriv exEbb 0 [] [exRa] 1 true ⟨id⟩ [] [exRa]
    (fun h => by cases h) (fun h => by cases h) rfl

/-! ## Tier-3 structure lemmas -/

theorem roomSolidMatch_iff (K : Kernel S) (r : RRoom S) (s : S) :
    roomSolidMatch K r s = true ↔
      ∃ s0 rest, r.solids = s0 :: rest ∧
        ∃ v, K.intersectVolume s0 s = some v ∧ volumeEps < v := by
  unfold roomSolidMatch
  cases hs : r.solids with
  | nil => simp [hs]
  | cons s0 rest =>
    cases hv : K.intersectVolume s0 s with
    | none => simp [hs, hv]
    | some v =>
      by_cases hlt : volumeEps < v
      · simp [hs, hv, hlt]
      · simp [hs, hv, hlt]

theorem tier3Room_eq (K : Kernel S) (room : RRoom S) (s0 : S)
    (rest : List S) (hs : room.solids = s0 :: rest) (es : List S) :
    tier3Room K room es =
      .ok (List.replicate (es.filter (roomSolidMatch K room)).length room) := by
  induction es with
  | nil => simp [tier3Room]
  | cons s es ih =>
    cases hv : K.intersectVolume s0 s with
    | none =>
      have hm : roomSolidMatch K room s = false := by
        simp [roomSolidMatch, hs, hv]
      simp [tier3Room, TestRoomIntersect, hs, hv, hm, ih, bind, Except.bind,
        List.filter_cons, pure, Except.pure]
    | some v =>
      by_cases hlt : volumeEps < v
      · have hm : roomSolidMatch K room s = true := by
          simp [roomSolidMatch, hs, hv, hlt]
        simp [tier3Room, TestRoomIntersect, hs, hv, hlt, hm, ih, bind,
          Except.bind, List.filter_cons, List.replicate_succ, pure,
          Except.pure]
      · have hm : roomSolidMatch K room s = false := by
          simp [roomSolidMatch, hs, hv, hlt]
        simp [tier3Room, TestRoomIntersect, hs, hv, hlt, hm, ih, bind,
          Except.bind, List.filter_cons, pure, Except.pure]

theorem tier3Matches_ok_solids (K : Kernel S) (es : List S)
    (rooms : List (RRoom S)) (m : List (RRoom S))
    (h : tier3Matches K es rooms = .ok m) :
    ∀ r ∈ rooms, r.solids ≠ [] := by
  induction rooms generalizing m with
  | nil => simp
  | cons room rest ih =>
    intro r hr
    cases hs : room.solids with
    | nil =>
      exfalso
      simp [tier3Matches, headRoomSolid, hs, bind, Except.bind] at h
    | cons s0 srest =>
      rcases List.mem_cons.mp hr with hrh | hrt
      · subst hrh; simp [hs]
      · simp only [tier3Matches, headRoomSolid, hs, bind, Except.bind] at h
        cases h3 : tier3Room K room es with
        | error e => rw [h3] at h; cases h
        | ok ms =>
          rw [h3] at h
          cases ht : tier3Matches K es rest with
          | error e => rw [ht] at h; cases h
          | ok tail => exact ih tail ht r hrt

theorem tier3Matches_eq (K : Kernel S) (es : List S)
    (rooms : List (RRoom S)) (h : ∀ r ∈ rooms, r.solids ≠ []) :
    tier3Matches K es rooms =
      .ok (rooms.flatMap
        (fun r =>
          List.replicate (es.filter (roomSolidMatch K r)).length r)) := by
  induction rooms with
  | nil => simp [tier3Matches]
  | cons room rest ih =>
    cases hs : room.solids with
    | nil => exact absurd hs (h room (by simp))
    | cons s0 srest =>
      have ihr := ih (fun r hr => h r (by simp [hr]))
      simp only [tier3Matches, headRoomSolid, hs, bind, Except.bind,
        tier3Room_eq K room s0 srest hs es, ihr, pure, Except.pure,
        List.flatMap_cons]

theorem tier3Matches_ok_eq (K : Kernel S) (es : List S)
    (rooms : List (RRoom S)) (m : List (RRoom S))
    (h : tier3Matches K es rooms = .ok m) :
    m = rooms.flatMap
      (fun r => List.replicate (es.filter (roomSolidMatch K r)).length r) := by
  have hsol := tier3Matches_ok_solids K es rooms m h
  have h2 := tier3Matches_eq K es rooms hsol
  rw [h] at h2
  exact Except.ok.inj h2

/-! ## C3: tier-3 epsilon and first-room-solid matching -/

/-- C3 (counterexample): a room decomposing into two solids where only the
second intersects the element solid (volume 1 > 1e-6) is not matched by
tier 3: the source only ever tests `GetSolids(room)[0]`, so the claimed
"every element-solid/room-solid pair" if-and-only-if fails. -/
theorem C3_cex_secondSolid :
    tier3Matches exK3 [5] [exR2s] = .ok [] ∧
    exR2s.solids = [0, 1] ∧
    exK3.intersectVolume 1 5 = some 1 ∧
    volumeEps < 1 := by
  refine ⟨by with_unfolding_all decide, rfl, rfl,
    by with_unfolding_all decide⟩

/-- C3 (amended): whenever tier 3 completes, a room is in the match list
iff it is a candidate and some element solid intersects the room's FIRST
decomposed solid with volume strictly above the 1e-6 epsilon; pairs at or
below the epsilon (and any further room solids) contribute no match. -/
theorem C3_tier3_eps (K : Kernel S) (es : List S) (rooms : List (RRoom S))
    (m : List (RRoom S)) (h : tier3Matches K es rooms = .ok m)
    (r : RRoom S) :
    r ∈ m ↔ r ∈ rooms ∧
      ∃ s ∈ es, ∃ s0 rest, r.solids = s0 :: rest ∧
        ∃ v, K.intersectVolume s0 s = some v ∧ volumeEps < v := by
  rw [tier3Matches_ok_eq K es rooms m h]
  simp only [List.mem_flatMap, List.mem_replicate]
  constructor
  · rintro ⟨a, ha, hlen, rfl⟩
    refine ⟨ha, ?_⟩
    cases hfe : es.filter (roomSolidMatch K r) with
    | nil => exact absurd (by rw [hfe]; rfl) hlen
    | cons s frest =>
      have hsf : s ∈ es.filter (roomSolidMatch K r) := by
        rw [hfe]; exact List.mem_cons_self s frest
      have hmf := List.mem_filter.mp hsf
      exact ⟨s, hmf.1, (roomSolidMatch_iff K r s).mp hmf.2⟩
  · rintro ⟨hr, s, hs, hmatch⟩
    have hsf : s ∈ es.filter (roomSolidMatch K r) :=
      List.mem_filter.mpr ⟨hs, (roomSolidMatch_iff K r s).mpr hmatch⟩
    exact ⟨r, hr,
      fun h0 => List.ne_nil_of_mem hsf (List.length_eq_zero.mp h0), rfl⟩

/-- Witness for C3: one room with solid 5, one element solid, intersection
volume 1; the room is matched and the characterization instantiates. -/
theorem C3_tier3_eps_witness :
    tier3Matches exK2 [9] [exRa] = .ok [exRa] ∧
    (exRa ∈ [exRa] ↔ exRa ∈ [exRa] ∧
      ∃ s ∈ [9], ∃ s0 rest, exRa.solids = s0 :: rest ∧
        ∃ v, exK2.intersectVolume s0 s = some v ∧ volumeEps < v) :=
  ⟨by with_unfolding_all decide,
   C3_tier3_eps exK2 [9] [exRa] [exRa] (by with_unfolding_all decide) exRa⟩

/-! ## C10: tier-3 duplicate multiplicity -/

theorem countReplicate {α : Type} [DecidableEq α] (n : Nat) (a r : α) :
    (List.replicate n a).count r = if r = a then n else 0 := by
  induction n with
  | zero => simp
  | succ n ih =>
    by_cases hra : r = a
    · subst hra
      simp [List.replicate_succ, List.count_cons, ih]
    · simp [List.replicate_succ, List.count_cons, ih, hra, Ne.symm hra]

theorem flatMapSingleFilter (K : Kernel S) (s : S)
    (rooms : List (RRoom S)) :
    (rooms.flatMap
        (fun a =>
          List.replicate ([s].filter (roomSolidMatch K a)).length a)) =
      rooms.filter (fun a => roomSolidMatch K a s) := by
  induction rooms with
  | nil => rfl
  | cons a rest ih =>
    simp only [List.flatMap_cons, ih]
    by_cases hm : roomSolidMatch K a s
    · simp [List.filter_cons, hm, List.replicate_succ]
    · simp [List.filter_cons, hm]

/-- C10: whenever tier 3 completes over duplicate-free candidates, each
candidate room occurs in the match list exactly once per element solid that
matches it — an element with k matching solids contributes k copies — and
with at most one element solid the result is duplicate-free. -/
theorem C10_multiplicity [DecidableEq S] (K : Kernel S) (es : List S)
    (rooms : List (RRoom S)) (m : List (RRoom S))
    (h : tier3Matches K es rooms = .ok m) (hnd : rooms.Nodup)
    (r : RRoom S) (hr : r ∈ rooms) :
    m.count r = (es.filter (roomSolidMatch K r)).length ∧
    (es.length ≤ 1 → m.Nodup) := by
  rw [tier3Matches_ok_eq K es rooms m h]
  constructor
  · clear h
    induction rooms with
    | nil => cases hr
    | cons a rest ih =>
      rw [List.flatMap_cons, List.count_append, countReplicate]
      rcases List.mem_cons.mp hr with hrh | hrt
      · subst hrh
        have hnr : r ∉ rest := (List.nodup_cons.mp hnd).1
        have hzero : (rest.flatMap
            (fun a =>
              List.replicate (es.filter (roomSolidMatch K a)).length
                a)).count r = 0 := by
          rw [List.count_eq_zero]
          intro hmem
          rcases List.mem_flatMap.mp hmem with ⟨b, hb, hrb⟩
          rcases List.mem_replicate.mp hrb with ⟨_, rfl⟩
          exact hnr hb
        simp [hzero]
      · have hna : a ≠ r := by
          rintro rfl
          exact (List.nodup_cons.mp hnd).1 hrt
        rw [if_neg (fun hc => hna hc.symm), Nat.zero_add]
        exact ih (List.nodup_cons.mp hnd).2 hrt
  · intro hlen
    match es, hlen with
    | [], _ =>
      have hnilmap :
          rooms.flatMap (fun _ => ([] : List (RRoom S))) = [] := by
        induction rooms with
        | nil => rfl
        | cons a rest ih3 => simp [ih3]
      simp only [List.filter_nil, List.length_nil, List.replicate_zero]
      rw [hnilmap]
      exact List.nodup_nil
    | [s], _ =>
      rw [flatMapSingleFilter]
      exact hnd.filter _

/-- Witness for C10: an element with two solids both intersecting the room
with volume 1 yields the room twice. -/
theorem C10_multiplicity_witness :
    tier3Matches exK2 [3, 4] [exRa] = .ok [exRa, exRa] ∧
    ([exRa, exRa].count exRa =
        (([3, 4] : List Nat).filter (roomSolidMatch exK2 exRa)).length ∧
      (([3, 4] : List Nat).length ≤ 1 → [exRa, exRa].Nodup)) :=
  ⟨by with_unfolding_all decide,
   C10_multiplicity exK2 [3, 4] [exRa] [exRa, exRa]
     (by with_unfolding_all decide) (by simp) exRa (by simp)⟩

/-! ## Tier-5 structure lemmas -/

theorem TestRoomIntersect_fst (K : Kernel S) (room : RRoom S) (s : S)
    (p : RRoom S × ℚ) (h : TestRoomIntersect K room s = .ok (some p)) :
    p.1 = room := by
  cases hs : room.solids with
  | nil => simp [TestRoomIntersect, hs] at h
  | cons s0 rest =>
    cases hv : K.intersectVolume s0 s with
    | none => simp [TestRoomIntersect, hs, hv] at h
    | some v =>
      simp only [TestRoomIntersect, hs, hv] at h
      by_cases hlt : volumeEps < v
      · rw [if_pos hlt] at h
        have h2 := Option.some.inj (Except.ok.inj h)
        rw [← h2]
      · rw [if_neg hlt] at h; cases h

theorem dictInsert_entry (d : List (ℚ × RRoom S)) (k : ℚ) (v : RRoom S) :
    ∀ e ∈ dictInsert d k v, e ∈ d ∨ e = (k, v) := by
  intro e he
  unfold dictInsert at he
  by_cases hc : d.any (fun p => p.1 = k) = true
  · rw [if_pos hc] at he
    rcases List.mem_map.mp he with ⟨p, hp, hpe⟩
    by_cases hpk : p.1 = k
    · right; rw [← hpe, if_pos hpk]
    · left; rw [← hpe, if_neg hpk]; exact hp
  · rw [if_neg hc] at he
    rcases List.mem_append.mp he with hd | hkv
    · exact .inl hd
    · right; simpa using hkv

theorem dictInsert_keys_mono (d : List (ℚ × RRoom S)) (k : ℚ) (v : RRoom S)
    (x : ℚ) (h : x ∈ d.map (fun p => p.1)) :
    x ∈ (dictInsert d k v).map (fun p => p.1) := by
  unfold dictInsert
  by_cases hc : d.any (fun p => p.1 = k) = true
  · rw [if_pos hc]
    rcases List.mem_map.mp h with ⟨p, hp, hpx⟩
    by_cases hpk : p.1 = k
    · refine List.mem_map.mpr ⟨(k, v), List.mem_map.mpr ⟨p, hp, ?_⟩, ?_⟩
      · rw [if_pos hpk]
      · rw [← hpx, hpk]
    · refine List.mem_map.mpr ⟨p, List.mem_map.mpr ⟨p, hp, ?_⟩, hpx⟩
      rw [if_neg hpk]
  · rw [if_neg hc, List.map_append]
    exact List.mem_append.mpr (.inl h)

theorem dictInsert_key_self (d : List (ℚ × RRoom S)) (k : ℚ)
    (v : RRoom S) : k ∈ (dictInsert d k v).map (fun p => p.1) := by
  unfold dictInsert
  by_cases hc : d.any (fun p => p.1 = k) = true
  · rw [if_pos hc]
    rcases List.any_eq_true.mp hc with ⟨p, hp, hpk⟩
    have hpk2 : p.1 = k := of_decide_eq_true hpk
    refine List.mem_map.mpr ⟨(k, v), List.mem_map.mpr ⟨p, hp, ?_⟩, rfl⟩
    rw [if_pos hpk2]
  · rw [if_neg hc, List.map_append]
    exact List.mem_append.mpr (.inr (by simp))

theorem foldlMax_ge_init (x : ℚ) (xs : List ℚ) : x ≤ xs.foldl max x := by
  induction xs generalizing x with
  | nil => exact le_refl x
  | cons y ys ih => exact le_trans (le_max_left x y) (ih (max x y))

theorem foldlMax_ge_mem (xs : List ℚ) (x k : ℚ) (h : k ∈ xs) :
    k ≤ xs.foldl max x := by
  induction xs generalizing x with
  | nil => cases h
  | cons y ys ih =>
    rcases List.mem_cons.mp h with rfl | hk
    · exact le_trans (le_max_right x k) (foldlMax_ge_init _ _)
    · exact ih (max x y) hk

theorem foldlMax_mem (xs : List ℚ) (x : ℚ) :
    xs.foldl max x = x ∨ xs.foldl max x ∈ xs := by
  induction xs generalizing x with
  | nil => exact .inl rfl
  | cons y ys ih =>
    rcases ih (max x y) with heq | hmem
    · rcases max_choice x y with hm | hm
      · left; rw [List.foldl_cons, heq, hm]
      · right; rw [List.foldl_cons, heq, hm]; exact List.mem_cons_self y ys
    · right; exact List.mem_cons_of_mem y hmem

theorem keysMax_spec (d : List (ℚ × RRoom S)) (hd : d ≠ []) :
    ∃ M, keysMax d = some M ∧ M ∈ d.map (fun p => p.1) ∧
      ∀ k ∈ d.map (fun p => p.1), k ≤ M := by
  unfold keysMax
  cases hk : d.map (fun p => p.1) with
  | nil => exact absurd (List.map_eq_nil_iff.mp hk) hd
  | cons k0 ks =>
    refine ⟨ks.foldl max k0, rfl, ?_, ?_⟩
    · rcases foldlMax_mem ks k0 with heq | hmem
      · rw [heq]; exact List.mem_cons_self k0 ks
      · exact List.mem_cons_of_mem k0 hmem
    · intro k hkmem
      rcases List.mem_cons.mp hkmem with rfl | hks
      · exact foldlMax_ge_init _ _
      · exact foldlMax_ge_mem _ _ _ hks

theorem find_of_key (d : List (ℚ × RRoom S)) (k : ℚ)
    (h : k ∈ d.map (fun p => p.1)) :
    ∃ p, d.find? (fun q => q.1 = k) = some p ∧ p ∈ d ∧ p.1 = k := by
  induction d with
  | nil => simp at h
  | cons q rest ih =>
    by_cases hq : q.1 = k
    · exact ⟨q, by simp [List.find?_cons, hq], by simp, hq⟩
    · have hk2 : k ∈ rest.map (fun p => p.1) := by
        rw [List.map_cons] at h
        rcases List.mem_cons.mp h with heq | hmem
        · exact absurd heq.symm hq
        · exact hmem
      rcases ih hk2 with ⟨p, hf, hp, hpk⟩
      exact ⟨p, by simp [List.find?_cons, hq, hf], List.mem_cons_of_mem q hp,
        hpk⟩

theorem tier5Pick_len (d : List (ℚ × RRoom S)) :
    (tier5Pick d).length ≤ 1 := by
  unfold tier5Pick
  cases keysMax d with
  | none => simp
  | some m =>
    cases hf : d.find? (fun p => p.1 = m) with
    | none => simp [hf]
    | some p => simp [hf]

theorem tier5Dict_spec (K : Kernel S) (synth : S) (rooms : List (RRoom S)) :
    ∀ d0 d, tier5Dict K synth rooms d0 = .ok d →
      (∀ e ∈ d, e ∈ d0 ∨ (e.2 ∈ rooms ∧
        TestRoomIntersect K e.2 synth = .ok (some (e.2, e.1)))) ∧
      (∀ k ∈ d0.map (fun p => p.1), k ∈ d.map (fun p => p.1)) ∧
      (∀ r ∈ rooms, ∀ v : ℚ,
        TestRoomIntersect K r synth = .ok (some (r, v)) →
          v ∈ d.map (fun p => p.1)) := by
  induction rooms with
  | nil =>
    intro d0 d h
    have hd : d0 = d := by
      simpa [tier5Dict] using h
    subst hd
    exact ⟨fun e he => .inl he, fun k hk => hk, by simp⟩
  | cons room rest ih =>
    intro d0 d h
    cases ht : TestRoomIntersect K room synth with
    | error e =>
      simp only [tier5Dict, ht, bind, Except.bind] at h
      cases h
    | ok t =>
      simp only [tier5Dict, ht, bind, Except.bind] at h
      cases t with
      | none =>
        obtain ⟨ha, hb, hc⟩ := ih d0 d h
        refine ⟨fun e he => (ha e he).imp id
          (fun hx => ⟨List.mem_cons_of_mem room hx.1, hx.2⟩), hb, ?_⟩
        intro r hr v hv
        rcases List.mem_cons.mp hr with rfl | hrr
        · rw [ht] at hv; cases hv
        · exact hc r hrr v hv
      | some p =>
        obtain ⟨r, v⟩ := p
        have hp1 : r = room := TestRoomIntersect_fst K room synth (r, v) ht
        subst hp1
        obtain ⟨ha, hb, hc⟩ := ih (dictInsert d0 v r) d h
        refine ⟨?_, ?_, ?_⟩
        · intro e he
          rcases ha e he with hin | hnew
          · rcases dictInsert_entry d0 v r e hin with hold | heq
            · exact .inl hold
            · right
              subst heq
              exact ⟨List.mem_cons_self r rest, ht⟩
          · exact .inr ⟨List.mem_cons_of_mem r hnew.1, hnew.2⟩
        · intro k hk
          exact hb k (dictInsert_keys_mono d0 v r k hk)
        · intro r2 hr2 v2 hv2
          rcases List.mem_cons.mp hr2 with rfl | hrr
          · rw [ht] at hv2
            have hpair := Option.some.inj (Except.ok.inj hv2)
            have hv2v : v2 = v := (Prod.mk.injEq _ _ _ _).mp hpair.symm |>.2
            subst hv2v
            exact hb v2 (dictInsert_key_self d0 v2 r2)
          · exact hc r2 hrr v2 hv2

/-! ## C2: tier-5 best-match selection -/

/-- C2 (counterexample): a candidate room whose intersection with the
synthetic tier-5 solid has positive volume 1/2000000 — below, not above,
the 1e-6 epsilon — produces no match at all: the resolver returns the
empty list rather than the room with the largest positive intersection
volume, refuting the claim for merely "positive" volumes. -/
theorem C2_cex_smallVolume :
    GetMatchingRooms exKtiny exEgeo ([] : List Nat) exO01 [exRa] =
      .ok [] ∧
    exKtiny.intersectVolume 5 (exKtiny.makeSolid exO01.minP exO01.maxP) =
      some (1/2000000) ∧
    (0 : ℚ) < 1/2000000 := by
  refine ⟨by with_unfolding_all decide, rfl, by with_unfolding_all decide⟩

/-- C2 (amended): whenever tiers 3 and 4 both complete with no match, the
cascade returns at most one room; and if any candidate room passes the
tier-5 match test against the synthetic solid built from the expanded
outline (intersection volume above the 1e-6 epsilon), the result is exactly
one candidate room whose intersection volume is maximal among all
candidates that pass the test. -/
theorem C2_tier5_best (K : Kernel S) (element : RElement S)
    (elementSolids : List S) (elementOutline : Outline)
    (rooms : List (RRoom S)) (res : List (RRoom S))
    (h3 : tier3Matches K elementSolids rooms = .ok [])
    (h4 : tier4Matches element rooms = .ok [])
    (hres : GetMatchingRooms K element elementSolids elementOutline rooms =
      .ok res) :
    res.length ≤ 1 ∧
    (∀ r0 ∈ rooms, ∀ v0 : ℚ,
      TestRoomIntersect K r0
          (K.makeSolid elementOutline.minP elementOutline.maxP) =
        .ok (some (r0, v0)) →
      ∃ r v, res = [r] ∧ r ∈ rooms ∧
        TestRoomIntersect K r
            (K.makeSolid elementOutline.minP elementOutline.maxP) =
          .ok (some (r, v)) ∧
        ∀ r2 ∈ rooms, ∀ v2 : ℚ,
          TestRoomIntersect K r2
              (K.makeSolid elementOutline.minP elementOutline.maxP) =
            .ok (some (r2, v2)) → v2 ≤ v) := by
  have h5 : tier5Match K elementOutline rooms = .ok res := by
    simpa [GetMatchingRooms, h3, h4, bind, Except.bind] using hres
  simp only [tier5Match, bind, Except.bind] at h5
  cases hd : tier5Dict K
      (K.makeSolid elementOutline.minP elementOutline.maxP) rooms [] with
  | error e => rw [hd] at h5; cases h5
  | ok d =>
    rw [hd] at h5
    have hres5 : res = tier5Pick d := (Except.ok.inj h5).symm
    subst hres5
    obtain ⟨ha, _, hc⟩ := tier5Dict_spec K
      (K.makeSolid elementOutline.minP elementOutline.maxP) rooms [] d hd
    refine ⟨tier5Pick_len d, ?_⟩
    intro r0 hr0 v0 hv0
    have hkey : v0 ∈ d.map (fun p => p.1) := hc r0 hr0 v0 hv0
    have hdne : d ≠ [] := by
      intro hnil
      rw [hnil] at hkey
      simp at hkey
    obtain ⟨M, hM, hMmem, hMmax⟩ := keysMax_spec d hdne
    obtain ⟨p, hfind, hpmem, hpk⟩ := find_of_key d M hMmem
    have hpick : tier5Pick d = [p.2] := by
      simp only [tier5Pick, hM, hfind]
    rcases ha p hpmem with hfalse | ⟨hproom, hptest⟩
    · simp at hfalse
    · refine ⟨p.2, p.1, by rw [hpick], hproom, hptest, ?_⟩
      intro r2 hr2 v2 hv2
      rw [hpk]
      exact hMmax v2 (hc r2 hr2 v2 hv2)

/-- Witness for C2: two candidate rooms with tier-5 intersection volumes 1
and 2; the cascade (with no element solids and no dependents) returns the
volume-2 room. -/
theorem C2_tier5_best_witness :
    GetMatchingRooms exK2 exEgeo ([] : List Nat) exO01 [exRa, exRb] =
      .ok [exRb] ∧
    ([exRb].length ≤ 1 ∧
    (∀ r0 ∈ [exRa, exRb], ∀ v0 : ℚ,
      TestRoomIntersect exK2 r0
          (exK2.makeSolid exO01.minP exO01.maxP) = .ok (some (r0, v0)) →
      ∃ r v, [exRb] = [r] ∧ r ∈ [exRa, exRb] ∧
        TestRoomIntersect exK2 r
            (exK2.makeSolid exO01.minP exO01.maxP) = .ok (some (r, v)) ∧
        ∀ r2 ∈ [exRa, exRb], ∀ v2 : ℚ,
          TestRoomIntersect exK2 r2
              (exK2.makeSolid exO01.minP exO01.maxP) =
            .ok (some (r2, v2)) → v2 ≤ v)) :=
  ⟨by with_unfolding_all decide,
   C2_tier5_best exK2 exEgeo ([] : List Nat) exO01 [exRa, exRb] [exRb]
     (by with_unfolding_all decide) (by with_unfolding_all decide)
     (by with_unfolding_all decide)⟩

/-! ## C5: loop counter lemmas and amended budget bound -/

theorem doorLoop_counters (ctx : LoopCtx) :
    ∀ (remaining : Nat) (dbr : DoorsByRoom) (numbered : List Nat)
      (writes : List (Nat × String)) (i n elig passes : Nat)
      (dbr2 : DoorsByRoom) (ws2 : List (Nat × String)) (n2 e2 p2 : Nat),
      doorLoop ctx remaining dbr numbered writes i n elig passes =
        .ok (dbr2, ws2, n2, e2, p2) →
      n2 = n + (p2 - passes) ∧ passes ≤ p2 ∧ p2 - passes ≤ remaining := by
  intro remaining
  induction remaining with
  | zero =>
    intro dbr numbered writes i n elig passes dbr2 ws2 n2 e2 p2 h
    unfold doorLoop at h
    by_cases hi : i ≤ ctx.maxLength
    · rw [if_pos hi] at h
      simp only [Except.ok.injEq, Prod.mk.injEq] at h
      obtain ⟨-, -, hn, -, hp⟩ := h
      omega
    · rw [if_neg hi] at h
      simp only [Except.ok.injEq, Prod.mk.injEq] at h
      obtain ⟨-, -, hn, -, hp⟩ := h
      omega
  | succ rem ih =>
    intro dbr numbered writes i n elig passes dbr2 ws2 n2 e2 p2 h
    unfold doorLoop at h
    by_cases hi : i ≤ ctx.maxLength
    · rw [if_pos hi] at h
      cases hp : passBody ctx dbr numbered i with
      | error e =>
        simp only [hp, bind, Except.bind] at h
        cases h
      | ok q =>
        obtain ⟨dbrq, numberedq, wsq, noRooms⟩ := q
        simp only [hp, bind, Except.bind] at h
        have hrec := ih dbrq numberedq (writes ++ wsq)
          (if noRooms then i + 1 else i) (n + 1)
          (if noRooms then elig else elig + 1) (passes + 1)
          dbr2 ws2 n2 e2 p2 h
        omega
    · rw [if_neg hi] at h
      simp only [Except.ok.injEq, Prod.mk.injEq] at h
      obtain ⟨-, -, hn, -, hp⟩ := h
      omega

theorem doorRun_counters (ctx : LoopCtx) (m : DoorsByRoom)
    (w : List (Nat × String)) (n e p : Nat)
    (h : doorRun ctx m = .ok (w, n, e, p)) :
    n = p ∧ p ≤ ctx.nMax + 1 := by
  unfold doorRun at h
  cases hl : doorLoop ctx (ctx.nMax + 1) m [] [] 1 0 0 0 with
  | error er => rw [hl] at h; cases h
  | ok q =>
    obtain ⟨dbr2, ws2, n2, e2, p2⟩ := q
    rw [hl] at h
    simp only [Except.ok.injEq, Prod.mk.injEq] at h
    obtain ⟨-, hn, -, hp⟩ := h
    have hcnt := doorLoop_counters ctx (ctx.nMax + 1) m [] [] 1 0 0 0
      dbr2 ws2 n2 e2 p2 hl
    omega

/-- C5 (amended): every executed pass of the level loop consumes exactly
one iteration-budget unit — whether or not any room was eligible — and the
loop always terminates with at most `2 × (size of doorsToLabel) + 1`
consumed units (it breaks at the first pass whose budget exceeds
`2 × doorCount`, or earlier when the level exceeds the maximum door
count), leaving any remaining doors un-numbered. -/
theorem C5_budget (allDoors doors : List Door) (phase : Phase)
    (pfx seperator : String) (suffixList : List String)
    (w : List (Nat × String)) (n e p : Nat)
    (h : computeDoorWrites allDoors doors phase pfx seperator suffixList =
      .ok (w, n, e, p)) :
    n = p ∧ p ≤ 2 * doors.length + 1 := by
  simp only [computeDoorWrites] at h
  cases hm : maxDoorsLength (List.foldl (addDoorToGraph phase) [] allDoors)
    with
  | error er => rw [hm] at h; cases h
  | ok maxLen =>
    rw [hm] at h
    have hrun := doorRun_counters _ _ _ _ _ _ h
    simp only at hrun
    omega

/-- Witness for C5: a single selected door in a one-room model; the loop
consumes 2 units in 2 passes, within the `2 × 1 + 1` bound. -/
theorem C5_budget_witness :
    computeDoorWrites [exD1] [exD1] 0 "" "" [] =
      .ok ([(1, "101")], 2, 1, 2) ∧
    (2 = 2 ∧ 2 ≤ 2 * ([exD1] : List Door).length + 1) :=
  ⟨by with_unfolding_all decide,
   C5_budget [exD1] [exD1] 0 "" "" [] [(1, "101")] 2 1 2
     (by with_unfolding_all decide)⟩

/-! ## C7: idempotence of door numbering -/

theorem applyWrites_point :
    ∀ (w : List (Nat × String)) (m : Marks) (x : Nat),
      applyWrites m w x =
        match writesLookup w x with
        | some v => some v
        | none => m x := by
  intro w
  induction w with
  | nil => intro m x; rfl
  | cons kv w ih =>
    intro m x
    have hstep : applyWrites m (kv :: w) x = applyWrites (markSet m kv) w x :=
      rfl
    rw [hstep, ih]
    cases hw : writesLookup w x with
    | some v => simp [writesLookup, hw]
    | none =>
      simp only [writesLookup, hw, markSet]
      by_cases hk : kv.1 = x
      · simp [hk]
      · simp [hk]

theorem applyWrites_idem (m : Marks) (w : List (Nat × String)) :
    applyWrites (applyWrites m w) w = applyWrites m w := by
  funext x
  rw [applyWrites_point, applyWrites_point]
  cases hw : writesLookup w x with
  | some v => simp [hw]
  | none => simp [hw]

/-- C7: the numbering algorithm reads only room/door data (never marks),
so a second run on an unchanged model computes the same writes and,
applied to the marks the first run produced, leaves them unchanged:
identical doors receive identical marks in both runs. -/
theorem C7_idempotent (allDoors doors : List Door) (phase : Phase)
    (pfx seperator : String) (suffixList : List String) (m : Marks)
    (r1 : Marks × Nat × Nat × Nat)
    (h1 : DoorRenameByRoomNumber allDoors doors phase pfx seperator
      suffixList m = .ok r1) :
    DoorRenameByRoomNumber allDoors doors phase pfx seperator suffixList
      r1.1 = .ok (r1.1, r1.2) := by
  unfold DoorRenameByRoomNumber at h1 ⊢
  cases hc : computeDoorWrites allDoors doors phase pfx seperator suffixList
    with
  | error e =>
    rw [hc] at h1
    simp [Except.map] at h1
  | ok q =>
    rw [hc] at h1
    have hq : (applyWrites m q.1, q.2) = r1 := Except.ok.inj h1
    have hmark : r1.1 = applyWrites m q.1 := by rw [← hq]
    have hcnt : r1.2 = q.2 := by rw [← hq]
    simp only [Except.map]
    rw [hmark, applyWrites_idem, hcnt]

/-- Witness for C7: after the first run writes mark `101`, a second run on
the unchanged one-door model returns the same marks and counters. -/
theorem C7_idempotent_witness :
    DoorRenameByRoomNumber [exD1] [exD1] 0 "" "" [] exM1 =
      .ok (exM1, 2, 1, 2) :=
  C7_idempotent [exD1] [exD1] 0 "" "" [] exMarks0 (exM1, 2, 1, 2)
    (by with_unfolding_all rfl)

/-! ## Totality lemmas for the amended C9 -/

theorem TestRoomIntersect_ok (K : Kernel S) (r : RRoom S) (s : S)
    (h : r.solids ≠ []) : ∃ t, TestRoomIntersect K r s = .ok t := by
  cases hs : r.solids with
  | nil => exact absurd hs h
  | cons s0 rest =>
    cases hv : K.intersectVolume s0 s with
    | none => exact ⟨none, by simp [TestRoomIntersect, hs, hv]⟩
    | some v =>
      by_cases hlt : volumeEps < v
      · exact ⟨some (r, v), by simp [TestRoomIntersect, hs, hv, hlt]⟩
      · exact ⟨none, by simp [TestRoomIntersect, hs, hv, hlt]⟩

theorem tier4Matches_ok (element : RElement S) (rooms : List (RRoom S))
    (h : ∀ r ∈ rooms, r.solids ≠ []) :
    ∃ l, tier4Matches element rooms = .ok l := by
  induction rooms with
  | nil => exact ⟨[], rfl⟩
  | cons room rest ih =>
    cases hs : room.solids with
    | nil => exact absurd hs (h room (by simp))
    | cons s0 srest =>
      obtain ⟨l, hl⟩ := ih (fun r hr => h r (by simp [hr]))
      exact ⟨(if element.dependentsIntersect s0 then [room] else []) ++ l,
        by simp [tier4Matches, headRoomSolid, hs, hl, bind, Except.bind,
          pure, Except.pure]⟩

theorem tier5Dict_ok (K : Kernel S) (synth : S) (rooms : List (RRoom S))
    (h : ∀ r ∈ rooms, r.solids ≠ []) :
    ∀ d0, ∃ d, tier5Dict K synth rooms d0 = .ok d := by
  induction rooms with
  | nil => exact fun d0 => ⟨d0, rfl⟩
  | cons room rest ih =>
    intro d0
    obtain ⟨t, ht⟩ := TestRoomIntersect_ok K room synth (h room (by simp))
    cases t with
    | none =>
      obtain ⟨d, hd⟩ := ih (fun r hr => h r (by simp [hr])) d0
      refine ⟨d, ?_⟩
      simp only [tier5Dict, ht, bind, Except.bind]
      exact hd
    | some rv =>
      obtain ⟨r, v⟩ := rv
      obtain ⟨d, hd⟩ := ih (fun r2 hr2 => h r2 (by simp [hr2]))
        (dictInsert d0 v r)
      refine ⟨d, ?_⟩
      simp only [tier5Dict, ht, bind, Except.bind]
      exact hd

theorem tier5Match_ok (K : Kernel S) (o : Outline) (rooms : List (RRoom S))
    (h : ∀ r ∈ rooms, r.solids ≠ []) :
    ∃ l, tier5Match K o rooms = .ok l := by
  obtain ⟨d, hd⟩ := tier5Dict_ok K (K.makeSolid o.minP o.maxP) rooms h []
  exact ⟨tier5Pick d,
    by simp [tier5Match, hd, bind, Except.bind, pure, Except.pure]⟩

theorem GetMatchingRooms_ok (K : Kernel S) (element : RElement S)
    (es : List S) (o : Outline) (rooms : List (RRoom S))
    (h : ∀ r ∈ rooms, r.solids ≠ []) :
    ∃ res, GetMatchingRooms K element es o rooms = .ok res := by
  have h3 := tier3Matches_eq K es rooms h
  obtain ⟨l4, h4⟩ := tier4Matches_ok element rooms h
  obtain ⟨l5, h5⟩ := tier5Match_ok K o rooms h
  by_cases he3 : (rooms.flatMap
      (fun r =>
        List.replicate (es.filter (roomSolidMatch K r)).length r)).isEmpty
  · by_cases he4 : l4.isEmpty
    · exact ⟨l5, by simp [GetMatchingRooms, h3, h4, h5, he3, he4, bind,
        Except.bind]⟩
    · exact ⟨l4, by simp [GetMatchingRooms, h3, h4, he3, he4, bind,
        Except.bind, pure, Except.pure]⟩
  · exact ⟨rooms.flatMap
      (fun r => List.replicate (es.filter (roomSolidMatch K r)).length r),
      by simp [GetMatchingRooms, h3, he3, bind, Except.bind, pure,
        Except.pure]⟩

theorem candidateRooms_subset (docRooms rooms : List (RRoom S))
    (o : Outline) : ∀ r ∈ candidateRooms docRooms rooms o, r ∈ docRooms := by
  intro r hr
  unfold candidateRooms at hr
  by_cases hc : rooms.isEmpty
  · simp only [hc, Bool.not_true, if_neg] at hr
    exact (List.mem_filter.mp hr).1
  · simp only [hc, Bool.not_false, if_pos] at hr
    exact (List.mem_filter.mp (List.mem_filter.mp hr).1).1

theorem GetElementRooms_ok (K : Kernel S) (element : RElement S)
    (phase : Phase) (roomsArg : List (RRoom S)) (offset : ℚ) (ptl : Bool)
    (docRooms : List (RRoom S)) (h : ∀ r ∈ docRooms, r.solids ≠ []) :
    ∃ res, GetElementRooms K element phase (some roomsArg) offset ptl
      docRooms = .ok res := by
  cases hsr : selfReportToRooms element phase with
  | some l => exact ⟨some l, by simp [GetElementRooms, hsr]⟩
  | none =>
    cases hsr2 : selfReportRoom element phase with
    | some l => exact ⟨some l, by simp [GetElementRooms, hsr, hsr2]⟩
    | none =>
      cases hbb : element.bboxEnabled with
      | false => exact ⟨none, by simp [GetElementRooms, hsr, hsr2, hbb]⟩
      | true =>
        obtain ⟨res, hres⟩ := GetMatchingRooms_ok K element element.solids
          (if ptl && element.location.isSome then
            ProjectToLevel
              (expandOutline element.bboxMin element.bboxMax offset) element
          else expandOutline element.bboxMin element.bboxMax offset)
          (candidateRooms docRooms roomsArg
            (if ptl && element.location.isSome then
              ProjectToLevel
                (expandOutline element.bboxMin element.bboxMax offset)
                element
            else expandOutline element.bboxMin element.bboxMax offset))
          (fun r hr => h r (candidateRooms_subset docRooms roomsArg _ r hr))
        refine ⟨some res, ?_⟩
        simp only [GetElementRooms, hsr, hsr2, hbb, Bool.not_true,
          Bool.false_eq_true, if_false]
        rw [hres]
        rfl

theorem insertDescBy_length {α : Type} (key : α → Nat) (x : α)
    (l : List α) : (insertDescBy key x l).length = l.length + 1 := by
  induction l with
  | nil => rfl
  | cons y ys ih =>
    unfold insertDescBy
    by_cases h : key x ≤ key y
    · simp [h, ih]
    · simp [h]

theorem sortDescBy_length {α : Type} (key : α → Nat) (l : List α) :
    (sortDescBy key l).length = l.length := by
  have hgen : ∀ acc : List α,
      (l.foldl (fun a x => insertDescBy key x a) acc).length =
        acc.length + l.length := by
    induction l with
    | nil => intro acc; simp
    | cons y ys ih =>
      intro acc
      rw [List.foldl_cons, ih (insertDescBy key y acc), insertDescBy_length]
      simp only [List.length_cons]
      omega
  rw [sortDescBy, hgen []]
  simp

theorem suffixAt_ok (j : Nat) (h : j < 26) : ∃ s, suffixAt j = .ok s := by
  unfold suffixAt
  cases hd : asciiUppercase.toList.drop j with
  | nil =>
    exfalso
    have hlen : asciiUppercase.toList.length = 26 := by decide
    have hdl : (asciiUppercase.toList.drop j).length =
        asciiUppercase.toList.length - j := List.length_drop j _
    rw [hd, hlen] at hdl
    simp at hdl
    omega
  | cons c cs => exact ⟨String.mk [c], rfl⟩

theorem assignLoop_ok (sel : List Nat) (roomNumber : String)
    (multi : Bool) (ds : List Nat) :
    ∀ (j : Nat) (numbered : List Nat) (writes : List (Nat × String)),
      j + ds.length ≤ 26 →
      ∃ out, assignLoop sel roomNumber multi j ds numbered writes =
        .ok out := by
  induction ds with
  | nil => exact fun j numbered writes _ => ⟨(numbered, writes), rfl⟩
  | cons d ds ih =>
    intro j numbered writes h
    have hlen : j + 1 + ds.length ≤ 26 := by
      simp only [List.length_cons] at h
      omega
    cases hmu : multi with
    | false =>
      subst hmu
      obtain ⟨out, hrec⟩ := ih (j + 1) (setAdd numbered d)
        (if d ∈ sel then writes ++ [(d, roomNumber)] else writes) hlen
      exact ⟨out, by simp [assignLoop, bind, Except.bind, pure,
        Except.pure, hrec]⟩
    | true =>
      subst hmu
      obtain ⟨sfx, hsfx⟩ := suffixAt_ok j (by omega)
      obtain ⟨out, hrec⟩ := ih (j + 1) (setAdd numbered d)
        (if d ∈ sel then writes ++ [(d, roomNumber ++ sfx)] else writes)
        hlen
      exact ⟨out, by simp [assignLoop, hsfx, bind, Except.bind, pure,
        Except.pure, hrec]⟩

theorem dbrGet_doors_bound (dbr : DoorsByRoom) (rid : Nat)
    (hinv : ∀ e ∈ dbr, e.2.doors.length ≤ 26) :
    (dbrGet dbr rid).doors.length ≤ 26 := by
  unfold dbrGet
  cases hf : dbr.find? (fun p => p.1 = rid) with
  | none => decide
  | some p => exact hinv p (List.mem_of_find?_eq_some hf)

theorem roomsPass_ok (ctx : LoopCtx) (dbr : DoorsByRoom) (i : Nat)
    (hinv : ∀ e ∈ dbr, e.2.doors.length ≤ 26) (rids : List Nat) :
    ∀ (numbered : List Nat) (writes : List (Nat × String))
      (noRooms : Bool),
      ∃ out, roomsPass ctx dbr i rids numbered writes noRooms =
        .ok out := by
  induction rids with
  | nil => exact fun numbered writes noRooms => ⟨(numbered, writes, noRooms), rfl⟩
  | cons rid rest ih =>
    intro numbered writes noRooms
    by_cases hdc : (dbrGet dbr rid).doorCount = i
    · have hlen : (sortDescBy (fun d => dcGet ctx.doorConnectors d)
          ((dbrGet dbr rid).doors.filter (fun d => d ∉ numbered))).length
            ≤ 26 := by
        rw [sortDescBy_length]
        exact le_trans (List.length_filter_le _ _)
          (dbrGet_doors_bound dbr rid hinv)
      obtain ⟨apair, hassign⟩ := assignLoop_ok ctx.selectedDoorIds
        (dbrGet dbr rid).roomNumber
        (decide (1 <
          ((dbrGet dbr rid).doors.filter (fun d => d ∉ numbered)).length))
        (sortDescBy (fun d => dcGet ctx.doorConnectors d)
          ((dbrGet dbr rid).doors.filter (fun d => d ∉ numbered)))
        0 numbered [] (by omega)
      obtain ⟨numbered2, ws⟩ := apair
      obtain ⟨out, hrec⟩ := ih numbered2 (writes ++ ws) false
      simp only [decide_not] at hassign
      exact ⟨out, by simp [roomsPass, hdc, hassign, bind,
        Except.bind, hrec]⟩
    · obtain ⟨out, hrec⟩ := ih numbered writes noRooms
      exact ⟨out, by simp [roomsPass, hdc, hrec]⟩

theorem passBody_ok (ctx : LoopCtx) (dbr : DoorsByRoom)
    (numbered : List Nat) (i : Nat)
    (hinv : ∀ e ∈ dbr, e.2.doors.length ≤ 26) :
    ∃ dbr2 numbered2 ws noRooms,
      passBody ctx dbr numbered i = .ok (dbr2, numbered2, ws, noRooms) ∧
      ∀ e ∈ dbr2, e.2.doors.length ≤ 26 := by
  obtain ⟨out, hrp⟩ := roomsPass_ok ctx dbr i hinv
    (sortAscBy (fun rid => (dbrGet dbr rid).roomArea)
      ((dbr.filter (fun p => p.2.doorCount = i)).map (fun p => p.1)))
    numbered [] true
  obtain ⟨numbered2, ws, noRooms⟩ := out
  refine ⟨dbr.map (fun p =>
      (p.1, { p.2 with
        doors := p.2.doors.filter (fun d => d ∉ numbered2),
        doorCount := (p.2.doors.filter (fun d => d ∉ numbered2)).length })),
    numbered2, ws, noRooms, ?_, ?_⟩
  · simp [passBody, hrp, bind, Except.bind, pure, Except.pure]
  · intro e he
    rcases List.mem_map.mp he with ⟨p, hp, rfl⟩
    exact le_trans (List.length_filter_le _ _) (hinv p hp)

theorem doorLoop_ok (ctx : LoopCtx) :
    ∀ (remaining : Nat) (dbr : DoorsByRoom) (numbered : List Nat)
      (writes : List (Nat × String)) (i n elig passes : Nat),
      (∀ e ∈ dbr, e.2.doors.length ≤ 26) →
      ∃ out, doorLoop ctx remaining dbr numbered writes i n elig passes =
        .ok out := by
  intro remaining
  induction remaining with
  | zero =>
    intro dbr numbered writes i n elig passes _
    by_cases hi : i ≤ ctx.maxLength
    · exact ⟨(dbr, writes, n, elig, passes),
        by unfold doorLoop; rw [if_pos hi]⟩
    · exact ⟨(dbr, writes, n, elig, passes),
        by unfold doorLoop; rw [if_neg hi]⟩
  | succ rem ih =>
    intro dbr numbered writes i n elig passes hinv
    by_cases hi : i ≤ ctx.maxLength
    · obtain ⟨dbr2, numbered2, ws, noRooms, hpb, hinv2⟩ :=
        passBody_ok ctx dbr numbered i hinv
      obtain ⟨out, hrec⟩ := ih dbr2 numbered2 (writes ++ ws)
        (if noRooms then i + 1 else i) (n + 1)
        (if noRooms then elig else elig + 1) (passes + 1) hinv2
      refine ⟨out, ?_⟩
      unfold doorLoop
      rw [if_pos hi]
      simp only [hpb, bind, Except.bind]
      exact hrec
    · exact ⟨(dbr, writes, n, elig, passes),
        by unfold doorLoop; rw [if_neg hi]⟩

theorem maxDoorsLength_ok (m : DoorsByRoom) (h : m ≠ []) :
    ∃ k, maxDoorsLength m = .ok k := by
  unfold maxDoorsLength
  cases hm2 : m.map (fun p => p.2.doors.length) with
  | nil => exact absurd (List.map_eq_nil_iff.mp hm2) h
  | cons x xs => exact ⟨xs.foldl max x, rfl⟩

theorem computeDoorWrites_ok (allDoors doors : List Door) (phase : Phase)
    (pfx seperator : String) (suffixList : List String)
    (hne : List.foldl (addDoorToGraph phase) [] allDoors ≠ [])
    (hbound : ∀ e ∈ List.foldl (addDoorToGraph phase) [] allDoors,
      e.2.doors.length ≤ 26) :
    ∃ out, computeDoorWrites allDoors doors phase pfx seperator suffixList =
      .ok out := by
  obtain ⟨maxLen, hml⟩ := maxDoorsLength_ok _ hne
  have hinv2 : ∀ e ∈ (List.foldl (addDoorToGraph phase) [] allDoors).map
      (fun p => (p.1, { p.2 with doorCount := p.2.doors.length })),
      e.2.doors.length ≤ 26 := by
    intro e he
    rcases List.mem_map.mp he with ⟨p, hp, rfl⟩
    exact hbound p hp
  obtain ⟨lout, hloop⟩ := doorLoop_ok
    ⟨doors.map (fun d => d.id),
     buildDoorConnectors allDoors
       ((List.foldl (addDoorToGraph phase) [] allDoors).map
         (fun p => p.2.doors)),
     maxLen, doors.length * 2⟩
    ((⟨doors.map (fun d => d.id),
       buildDoorConnectors allDoors
         ((List.foldl (addDoorToGraph phase) [] allDoors).map
           (fun p => p.2.doors)),
       maxLen, doors.length * 2⟩ : LoopCtx).nMax + 1)
    ((List.foldl (addDoorToGraph phase) [] allDoors).map
      (fun p => (p.1, { p.2 with doorCount := p.2.doors.length })))
    [] [] 1 0 0 0 hinv2
  obtain ⟨st, ws, n2, e2, p2⟩ := lout
  have hdr : doorRun
      ⟨doors.map (fun d => d.id),
       buildDoorConnectors allDoors
         ((List.foldl (addDoorToGraph phase) [] allDoors).map
           (fun p => p.2.doors)),
       maxLen, doors.length * 2⟩
      ((List.foldl (addDoorToGraph phase) [] allDoors).map
        (fun p => (p.1, { p.2 with doorCount := p.2.doors.length }))) =
      .ok (ws, n2, e2, p2) := by
    unfold doorRun
    rw [hloop]
  refine ⟨(ws, n2, e2, p2), ?_⟩
  simp only [computeDoorWrites]
  rw [hml]
  exact hdr

/-! ## C9: amended error-freedom theorem -/

/-- C9 (amended): with the raising inputs carved out, the engine does
complete without raising: `GetElementRooms` returns a value whenever its
`rooms` argument is an actual list (the declared default `None` raises
`TypeError` in the eagerly formatted entry log, revit.py:926, before any
tier runs) and every candidate room decomposes into at least one solid,
and `DoorRenameByRoomNumber` returns a value whenever at least one door
reports a room association for the phase and no room accumulates more than
the 26 available suffix letters. -/
theorem C9_total (K : Kernel S) (element : RElement S) (phase : Phase)
    (roomsArg docRooms : List (RRoom S)) (offset : ℚ) (ptl : Bool)
    (allDoors doors : List Door) (pfx seperator : String)
    (suffixList : List String) (marks : Marks)
    (hsolids : ∀ r ∈ docRooms, r.solids ≠ [])
    (hne : List.foldl (addDoorToGraph phase) [] allDoors ≠ [])
    (hbound : ∀ e ∈ List.foldl (addDoorToGraph phase) [] allDoors,
      e.2.doors.length ≤ 26) :
    (GetElementRooms K element phase (some roomsArg) offset ptl
      docRooms).isOk = true ∧
    (DoorRenameByRoomNumber allDoors doors phase pfx seperator suffixList
      marks).isOk = true := by
  constructor
  · obtain ⟨res, hres⟩ := GetElementRooms_ok K element phase roomsArg
      offset ptl docRooms hsolids
    rw [hres]
    rfl
  · obtain ⟨out, hout⟩ := computeDoorWrites_ok allDoors doors phase pfx
      seperator suffixList hne hbound
    unfold DoorRenameByRoomNumber
    rw [hout]
    rfl

/-- Witness for C9: the one-room/one-door fixtures. -/
theorem C9_total_witness :
    (GetElementRooms exKtriv exEgeo 0 (some []) 1 true [exRa]).isOk =
      true ∧
    (DoorRenameByRoomNumber [exD1] [exD1] 0 "" "" [] exMarks0).isOk =
      true :=
  C9_total exKtriv exEgeo 0 [] [exRa] 1 true [exD1] [exD1] "" "" []
    exMarks0 (by with_unfolding_all decide) (by with_unfolding_all decide)
    (by with_unfolding_all decide)

/-! ## C9: empty room/door graph (counterexample half) -/

/-- C9 (counterexample): when no door reports any `ToRoom`/`FromRoom`
association for the phase, `doorsByRoom` is empty and
`max([len(values["doors"]) ...])` raises `ValueError`, so
`DoorRenameByRoomNumber` does not complete with a result. -/
theorem C9_cex_emptyGraph :
    computeDoorWrites [exDnone] [exDnone] 0 "" "" [] =
      .error .valueError := by
  with_unfolding_all decide

end Flamingo
